import Mathlib

/-!
Verification of the pharos Ph directory server (pharos-server crate).

The definitions below are a shallow embedding of the Rust sources:
  * `tokenize`, `parseCommand`   — pharos-server/src/protocol.rs
  * `MemoryStorage` and friends  — pharos-server/src/storage.rs
  * `mwPre`, `chainPre`          — pharos-server/src/middleware.rs
  * `dispatchCommand`, `sessionStep` — pharos-server/src/lib.rs (handle_connection)
  * `AuthManager.verify` is abstracted as a boolean-valued parameter
    `verify : Str → Str → Str → Bool`; the session claims only concern the
    handler's use of its result, not the cryptography.

Strings are modelled as `List Char` (`Str`), matching Rust's
char-by-char iteration in protocol.rs.  Rust's Unicode-aware
`char::is_whitespace` is embedded as `isWs` (the Unicode White_Space
code points); `to_lowercase` is embedded as ASCII lowercasing
(`lowerChar`), which agrees with Rust on all ASCII input.
-/

namespace Pharos

/-- Strings as lists of characters, as the Rust code iterates over `chars()`. -/
abbrev Str := List Char

/-- Literal helper: the character list of a Lean string literal. -/
def str (s : String) : Str := s.data

/-- Rust `char::is_whitespace`: the Unicode White_Space code points. -/
def isWs (c : Char) : Bool :=
  c.val == 0x09 || c.val == 0x0A || c.val == 0x0B || c.val == 0x0C || c.val == 0x0D ||
  c.val == 0x20 || c.val == 0x85 || c.val == 0xA0 || c.val == 0x1680 ||
  (0x2000 ≤ c.val && c.val ≤ 0x200A) || c.val == 0x2028 || c.val == 0x2029 ||
  c.val == 0x202F || c.val == 0x205F || c.val == 0x3000

/-- ASCII lowercasing of one character (Rust `to_lowercase`, restricted to
the ASCII range on which all protocol keywords live). -/
def lowerChar (c : Char) : Char :=
  if 65 ≤ c.toNat ∧ c.toNat ≤ 90 then Char.ofNat (c.toNat + 32) else c

/-- Rust `str::to_lowercase` on the model strings. -/
def lower (s : Str) : Str := s.map lowerChar

/-- Rust `str::trim` (both ends, whitespace per `isWs`). -/
def trimStr (s : Str) : Str :=
  ((s.dropWhile isWs).reverse.dropWhile isWs).reverse

/-- `ProtocolError` from protocol.rs. -/
inductive ProtocolError where
  | unknownCommand
  | syntaxError
  | invalidArgument
deriving DecidableEq

/-- `Result<α, ProtocolError>` as used by protocol.rs. -/
inductive PResult (α : Type) where
  | ok (a : α)
  | err (e : ProtocolError)
deriving DecidableEq

/-- Scanner state of `tokenize` (protocol.rs): the `in_quotes`/`escaped`
flags, the token being accumulated and the tokens already produced. -/
structure TokState where
  inQuotes : Bool
  escaped : Bool
  cur : Str
  toks : List Str
deriving DecidableEq

/-- The escape table of `tokenize`: `n`→LF, `t`→TAB, `"`→`"`, `\`→`\`, else identity. -/
def escChar (c : Char) : Char :=
  if c = 'n' then '\n'
  else if c = 't' then '\t'
  else if c = '"' then '"'
  else if c = '\\' then '\\'
  else c

/-- Terminate the current token if it is nonempty (the whitespace case of `tokenize`). -/
def flushCur (s : TokState) : TokState :=
  if s.cur = [] then s else { s with cur := [], toks := s.toks ++ [s.cur] }

/-- One character of the `tokenize` scan, in the order the Rust code tests:
escape state, backslash, quote, unquoted whitespace, ordinary character. -/
def tokStep (s : TokState) (c : Char) : TokState :=
  if s.escaped then { s with cur := s.cur ++ [escChar c], escaped := false }
  else if c = '\\' then { s with escaped := true }
  else if c = '"' then { s with inQuotes := !s.inQuotes }
  else if isWs c && !s.inQuotes then flushCur s
  else { s with cur := s.cur ++ [c] }

/-- Initial scanner state. -/
def initTok : TokState := ⟨false, false, [], []⟩

/-- Run the scan from a given state. -/
def scanFrom (s : TokState) (l : Str) : TokState := l.foldl tokStep s

/-- Scanner state after the whole input. -/
def scanTok (l : Str) : TokState := scanFrom initTok l

/-- End of input in `tokenize`: unclosed quotes are a syntax error; a leftover
nonempty token is appended.  A dangling escape state is silently dropped. -/
def finishTok (s : TokState) : PResult (List Str) :=
  if s.inQuotes then .err .syntaxError
  else .ok (s.toks ++ if s.cur = [] then [] else [s.cur])

/-- `tokenize` from protocol.rs. -/
def tokenize (l : Str) : PResult (List Str) := finishTok (scanTok l)

/-- The typed command values of protocol.rs (`enum Command`). -/
inductive Command where
  | status
  | siteInfo
  | fields (names : List Str)
  | id (s : Str)
  | set (args : List Str)
  | login (s : Str)
  | logout
  | answer (s : Str)
  | clear (s : Str)
  | email (s : Str)
  | xlogin (opt : Nat) (s : Str)
  | add (pairs : List (Str × Str))
  | query (selections : List (Option Str × Str)) (returns : List Str)
  | delete (selections : List (Option Str × Str))
  | change (selections : List (Option Str × Str)) (modifications : List (Str × Str)) (force : Bool)
  | help (target : Option Str) (topics : List Str)
  | auth (publicKey : Str) (signature : Str)
  | quit
deriving DecidableEq

/-- `parse_attr_value`: split a `k=v` token at the first `=`. -/
def parseAttrValue (t : Str) : Option (Str × Str) :=
  match t.findIdx? (fun c => decide (c = '=')) with
  | some i => some (t.take i, t.drop (i + 1))
  | none => none

/-- The `add` argument loop: every token must be a `k=v` pair. -/
def parsePairs : List Str → Option (List (Str × Str))
  | [] => some []
  | t :: ts =>
    match parseAttrValue t with
    | some kv => (parsePairs ts).map (kv :: ·)
    | none => none

/-- The `query`/`ph` argument loop with its `in_returns` flag: a token
spelled `return` (case-folded) flips to the return list; selection tokens
split as `k=v` when possible and otherwise become ε-field entries. -/
def parseQueryArgs : List Str → Bool → List (Option Str × Str) × List Str
  | [], _ => ([], [])
  | t :: ts, inRet =>
    if lower t = str "return" then parseQueryArgs ts true
    else
      let rest := parseQueryArgs ts inRet
      if inRet then (rest.1, t :: rest.2)
      else
        match parseAttrValue t with
        | some kv => ((some kv.1, kv.2) :: rest.1, rest.2)
        | none => ((none, t) :: rest.1, rest.2)

/-- The `delete` argument loop: selections only. -/
def parseSelections : List Str → List (Option Str × Str)
  | [] => []
  | t :: ts =>
    match parseAttrValue t with
    | some kv => (some kv.1, kv.2) :: parseSelections ts
    | none => (none, t) :: parseSelections ts

/-- The `change` argument loop with its phase and force flags; a token in
the modification phase without `=` is a syntax error. -/
def parseChangeArgs : List Str → Nat → Bool →
    Option (List (Option Str × Str) × List (Str × Str) × Bool)
  | [], _, force => some ([], [], force)
  | t :: ts, phase, force =>
    let lw := lower t
    if lw = str "make" ∨ lw = str "force" then
      parseChangeArgs ts 1 (decide (lw = str "force"))
    else if phase = 0 then
      match parseAttrValue t with
      | some kv => (parseChangeArgs ts phase force).map
          (fun r => ((some kv.1, kv.2) :: r.1, r.2.1, r.2.2))
      | none => (parseChangeArgs ts phase force).map
          (fun r => ((none, t) :: r.1, r.2.1, r.2.2))
    else
      match parseAttrValue t with
      | some kv => (parseChangeArgs ts phase force).map
          (fun r => (r.1, kv :: r.2.1, r.2.2))
      | none => none

/-- A decimal-digit string to its value (`u32::from_str` core). -/
def digitsVal : Str → Option Nat
  | [] => none
  | [c] => if '0' ≤ c ∧ c ≤ '9' then some (c.toNat - 48) else none
  | c :: cs =>
    if '0' ≤ c ∧ c ≤ '9' then
      (digitsVal cs).map (fun n => (c.toNat - 48) * 10 ^ cs.length + n)
    else none

/-- Rust `u32::from_str`: optional leading `+`, decimal digits, must fit in 32 bits. -/
def parseU32 (t : Str) : Option Nat :=
  let t' := match t with
    | '+' :: rest => rest
    | _ => t
  match digitsVal t' with
  | some n => if n < 2 ^ 32 then some n else none
  | none => none

/-- `tokens[1..].join(" ")` for the `id` command. -/
def joinSpace : List Str → Str
  | [] => []
  | [t] => t
  | t :: ts => t ++ ' ' :: joinSpace ts

/-- `parse_command` from protocol.rs: tokenize, then select on the
case-folded first token. -/
def parseCommand (l : Str) : PResult Command :=
  match tokenize l with
  | .err e => .err e
  | .ok [] => .err .syntaxError
  | .ok (t0 :: rest) =>
    let kw := lower t0
    if kw = str "status" then .ok .status
    else if kw = str "siteinfo" then .ok .siteInfo
    else if kw = str "fields" then .ok (.fields rest)
    else if kw = str "id" then
      if rest = [] then .err .syntaxError else .ok (.id (joinSpace rest))
    else if kw = str "auth" then
      match rest with
      | pk :: sg :: _ => .ok (.auth pk sg)
      | _ => .err .syntaxError
    else if kw = str "set" then .ok (.set rest)
    else if kw = str "login" then
      match rest with
      | a :: _ => .ok (.login a)
      | _ => .err .syntaxError
    else if kw = str "logout" then .ok .logout
    else if kw = str "answer" then
      match rest with
      | a :: _ => .ok (.answer a)
      | _ => .err .syntaxError
    else if kw = str "clear" then
      match rest with
      | a :: _ => .ok (.clear a)
      | _ => .err .syntaxError
    else if kw = str "email" then
      match rest with
      | a :: _ => .ok (.email a)
      | _ => .err .syntaxError
    else if kw = str "xlogin" then
      match rest with
      | a :: b :: _ =>
        match parseU32 a with
        | some n => .ok (.xlogin n b)
        | none => .err .invalidArgument
      | _ => .err .syntaxError
    else if kw = str "add" then
      match parsePairs rest with
      | some pairs => .ok (.add pairs)
      | none => .err .syntaxError
    else if kw = str "query" ∨ kw = str "ph" then
      let sr := parseQueryArgs rest false
      .ok (.query sr.1 sr.2)
    else if kw = str "delete" then .ok (.delete (parseSelections rest))
    else if kw = str "change" then
      match parseChangeArgs rest 0 false with
      | some r => .ok (.change r.1 r.2.1 r.2.2)
      | none => .err .syntaxError
    else if kw = str "help" then
      match rest with
      | [] => .ok (.help none [])
      | a :: more =>
        let first := lower a
        if first = str "native" ∨ first = str "ph" then .ok (.help (some first) more)
        else .ok (.help none (a :: more))
    else if kw = str "quit" ∨ kw = str "exit" ∨ kw = str "stop" then .ok .quit
    else .err .unknownCommand

/-- `RecordType` from storage.rs. -/
inductive RecordType where
  | person
  | machine
  | other (s : Str)
deriving DecidableEq

/-- `RecordType::from(&str)`: case-folded `person`/`machine`, else `Other`
(holding the original, unfolded string). -/
def recordTypeFromStr (s : Str) : RecordType :=
  if lower s = str "person" then .person
  else if lower s = str "machine" then .machine
  else .other s

/-- A stored record (storage.rs `Record`).  The Rust field map is a
`HashMap<String, String>`; it is modelled as an association list whose keys
are distinct (lookups take the first hit, inserts overwrite). -/
structure Record where
  id : Nat
  recordType : Option RecordType
  fields : List (Str × Str)
deriving DecidableEq

/-- `HashMap::get` on the modelled field map. -/
def lookupField (fs : List (Str × Str)) (k : Str) : Option Str :=
  (fs.find? (fun p => decide (p.1 = k))).map (·.2)

/-- `HashMap::insert` on the modelled field map: overwrite the key if present. -/
def insertField (fs : List (Str × Str)) (kv : Str × Str) : List (Str × Str) :=
  fs.filter (fun p => decide (p.1 ≠ kv.1)) ++ [kv]

/-- Build the field map of an `add` from its parsed pairs (lib.rs builds a
`HashMap` by inserting each pair in order). -/
def fieldMapOf (pairs : List (Str × Str)) : List (Str × Str) :=
  pairs.foldl insertField []

/-- `MemoryStorage`: a vector of records plus the next id. -/
structure MemoryStorage where
  records : List Record
  nextId : Nat
deriving DecidableEq

/-- `MemoryStorage::new`. -/
def memNew : MemoryStorage := ⟨[], 1⟩

/-- Rust `str::split` with a predicate: empty pieces are kept. -/
def splitOnPred (p : Char → Bool) : Str → List Str
  | [] => [[]]
  | c :: cs =>
    let r := splitOnPred p cs
    if p c then [] :: r
    else
      match r with
      | [] => [[c]]
      | w :: ws => (c :: w) :: ws

/-- Rust `str::split_whitespace`: split on whitespace, dropping empty pieces. -/
def splitWs (s : Str) : List Str := (splitOnPred isWs s).filter (fun w => decide (w ≠ []))

/-- The field-word separators of `MemoryStorage::matches`:
whitespace or `,` `;` `:`. -/
def isSep (c : Char) : Bool :=
  isWs c || c == ',' || c == ';' || c == ':'

/-- `MemoryStorage::wildcard_match`: only a trailing `*` is honored (prefix
match); any other pattern falls back to exact equality. -/
def wildcardMatch (word pat : Str) : Bool :=
  if pat.getLast? = some '*' then decide (pat.dropLast <+: word)
  else decide (word = pat)

/-- `MemoryStorage::matches`: case-fold both sides, split the query on
whitespace and the field value on whitespace/separators; every query word
must match some field word, by equality unless the query word contains a
wildcard character. -/
def matchesVal (fieldVal queryVal : Str) : Bool :=
  let f := lower fieldVal
  let q := lower queryVal
  let queryWords := splitWs q
  let fieldWords := splitOnPred isSep f
  queryWords.all fun qw =>
    fieldWords.any fun fw =>
      if qw.contains '*' || qw.contains '?' || qw.contains '+' then wildcardMatch fw qw
      else decide (fw = qw)

/-- `MemoryStorage::add_record`: assign the next id, derive the type
discriminator from the `type` field, append, bump the counter. -/
def addRecord (st : MemoryStorage) (fields : List (Str × Str)) : MemoryStorage :=
  let rt := (lookupField fields (str "type")).map recordTypeFromStr
  { records := st.records ++ [{ id := st.nextId, recordType := rt, fields := fields }],
    nextId := st.nextId + 1 }

/-- `MemoryStorage::record_count`. -/
def recordCount (st : MemoryStorage) : Nat := st.records.length

/-- Does some selection entry name the field `type`? -/
def selectionNamesType (sels : List (Option Str × Str)) : Bool :=
  sels.any fun p => decide (p.1 = some (str "type"))

/-- The discriminator gate of `MemoryStorage::query`: with a default type,
a record without a type is rejected; a typed record passes when its type
equals the default or the selections explicitly name `type`. -/
def typeGate (sels : List (Option Str × Str)) (dt : Option RecordType) (r : Record) : Bool :=
  match dt with
  | none => true
  | some d =>
    match r.recordType with
    | none => false
    | some t => decide (t = d) || selectionNamesType sels

/-- The selection conjunction of `MemoryStorage::query`: a field-qualified
entry requires the field to exist and match; an ε-field entry matches any
field value. -/
def selectionsMatch (sels : List (Option Str × Str)) (r : Record) : Bool :=
  sels.all fun sel =>
    match sel.1 with
    | some fieldName =>
      match lookupField r.fields fieldName with
      | some fieldVal => matchesVal fieldVal sel.2
      | none => false
    | none => (r.fields.map Prod.snd).any fun fieldVal => matchesVal fieldVal sel.2

/-- `MemoryStorage::query`: filter the records through the gate and the
selection conjunction, in store order. -/
def queryFn (st : MemoryStorage) (sels : List (Option Str × Str))
    (dt : Option RecordType) : List Record :=
  st.records.filter fun r => typeGate sels dt r && selectionsMatch sels r

/-- `SecurityTier` from auth.rs. -/
inductive SecurityTier where
  | openT
  | protectedT
  | scopedT
deriving DecidableEq

/-- `ClientContext` from middleware.rs. -/
structure ClientContext where
  id : Option Str
  authenticated : Bool
  peerAddr : Str
  roles : List Str
  tier : SecurityTier
deriving DecidableEq

/-- `MiddlewareAction` from middleware.rs. -/
inductive MiddlewareAction where
  | cont
  | shortCircuit (resp : Str)
deriving DecidableEq

/-- The three concrete middlewares of middleware.rs. -/
inductive Mw where
  | logging
  | readOnly (readOnlyIds : List Str)
  | securityTier (defaultTier : SecurityTier)
deriving DecidableEq

/-- `matches!(command, Add(_) | Delete(_) | Change {..})`. -/
def isWriteCommand : Command → Bool
  | .add _ => true
  | .delete _ => true
  | .change .. => true
  | _ => false

/-- `matches!(command, Status | Id(_) | Auth {..} | Quit)`. -/
def isAuthBypassed : Command → Bool
  | .status => true
  | .id _ => true
  | .auth .. => true
  | .quit => true
  | _ => false

/-- `pre_process` of each middleware.  Logging only observes; ReadOnly
short-circuits writes from listed ids; SecurityTier stamps the tier and
enforces the tier rules.  None of the three returns an error. -/
def mwPre : Mw → Command → ClientContext → ClientContext × MiddlewareAction
  | .logging, _, ctx => (ctx, .cont)
  | .readOnly ids, cmd, ctx =>
    if isWriteCommand cmd then
      match ctx.id with
      | some i =>
        if ids.contains i then
          (ctx, .shortCircuit (str "500:Read-only access permitted for this ID\n"))
        else (ctx, .cont)
      | none => (ctx, .cont)
    else (ctx, .cont)
  | .securityTier dt, cmd, ctx =>
    let ctx' := { ctx with tier := dt }
    match dt with
    | .openT => (ctx', .cont)
    | .protectedT =>
      if !isAuthBypassed cmd && !ctx'.authenticated then
        (ctx', .shortCircuit (str "401:Authentication required for Protected tier\n"))
      else (ctx', .cont)
    | .scopedT =>
      if !isAuthBypassed cmd && !ctx'.authenticated then
        (ctx', .shortCircuit (str "401:Authentication required for Scoped tier\n"))
      else if isWriteCommand cmd && !ctx'.roles.contains (str "admin") then
        (ctx', .shortCircuit (str "403:Forbidden: Admin role required for write operations\n"))
      else (ctx', .cont)

/-- `MiddlewareChain::pre_process`: run each `pre` in order; the first
short-circuit wins.  (`post_process` of all three middlewares is a no-op,
so it is not modelled.) -/
def chainPre : List Mw → Command → ClientContext → ClientContext × MiddlewareAction
  | [], _, ctx => (ctx, .cont)
  | m :: ms, cmd, ctx =>
    match mwPre m cmd ctx with
    | (ctx', .cont) => chainPre ms cmd ctx'
    | (ctx', .shortCircuit r) => (ctx', .shortCircuit r)

/-- Decimal digits of a natural number. -/
def natToStr (n : Nat) : Str := (toString n).data

/-- Byte-lexicographic order on strings (Rust `String` `Ord`; UTF-8 byte
order coincides with code-point order). -/
def strLe : Str → Str → Bool
  | [], _ => true
  | _ :: _, [] => false
  | a :: xs, b :: ys => if a = b then strLe xs ys else decide (a < b)

/-- The field names emitted for one record in the query response (lib.rs):
all field keys when the return clause is empty, else the return-clause
names that exist on the record; sorted. -/
def emittedKeys (r : Record) (returns : List Str) : List Str :=
  let keys := if returns = [] then r.fields.map Prod.fst
              else returns.filter fun k => (lookupField r.fields k).isSome
  List.mergeSort keys strLe

/-- The `-200:` data rows of one record (lib.rs query arm), 1-based index. -/
def recordLines (index : Nat) (r : Record) (returns : List Str) : Str :=
  ((emittedKeys r returns).map fun k =>
    str "-200:" ++ natToStr index ++ str ":" ++ k ++ str ": " ++
      (lookupField r.fields k).getD [] ++ str "\n").flatten

/-- The record loop of the query arm (`for (i, record) in records.iter().enumerate()`). -/
def queryBody (i : Nat) : List Record → List Str → Str
  | [], _ => []
  | r :: rs, returns => recordLines (i + 1) r returns ++ queryBody (i + 1) rs returns

/-- The full response of the query arm of `handle_connection`. -/
def queryResponse (records : List Record) (returns : List Str) : Str :=
  if records = [] then str "501:No matches to query\n"
  else
    str "102:There were " ++ natToStr records.length ++ str " matches to your request.\n" ++
    queryBody 0 records returns ++ str "200:Ok\n"

/-- Per-session state of `handle_connection`: the client context, the
shared store as seen by this session, the hex challenge generated at
accept, and whether the loop has exited. -/
structure SessionState where
  ctx : ClientContext
  store : MemoryStorage
  challengeHex : Str
  closed : Bool
deriving DecidableEq

/-- `hex::encode` on a byte list. -/
def hexDigit (n : Nat) : Char :=
  if n < 10 then Char.ofNat (48 + n) else Char.ofNat (87 + n)

/-- Hex-encode bytes, two lowercase digits per byte (`hex::encode`). -/
def hexEncode (bytes : List Nat) : Str :=
  (bytes.map fun b => [hexDigit (b / 16), hexDigit (b % 16)]).flatten

/-- The session state at accept (lib.rs): no id, unauthenticated, empty
roles, Open tier, the freshly generated challenge, loop running. -/
def initSession (peer : Str) (store : MemoryStorage) (challenge : Str) : SessionState :=
  ⟨⟨none, false, peer, [], .openT⟩, store, challenge, false⟩

/-- The command dispatch block of `handle_connection` (lib.rs).  `verify`
abstracts `AuthManager::verify` applied to the two command arguments and a
challenge string. -/
def dispatchCommand (verify : Str → Str → Str → Bool) (st : SessionState)
    (cmd : Command) : SessionState × Str :=
  match cmd with
  | .status => (st, str "100:Pharos server active\n200:Ok\n")
  | .id s => ({ st with ctx := { st.ctx with id := some (lower s) } }, str "200:Ok\n")
  | .auth pk sg =>
    if verify pk sg st.challengeHex then
      ({ st with ctx := { st.ctx with authenticated := true } }, str "200:Ok\n")
    else (st, str "403:Forbidden\n")
  | .quit => ({ st with closed := true }, str "200:Bye!\n")
  | .add pairs =>
    if !st.ctx.authenticated then
      (st, str "401:Authentication required. Challenge: " ++ st.challengeHex ++ str "\n")
    else
      ({ st with store := addRecord st.store (fieldMapOf pairs) }, str "200:Ok\n")
  | .query sels returns =>
    let defaultType : Option RecordType :=
      match st.ctx.id with
      | some cid =>
        if decide (str "ph" <:+: cid) then some .person
        else if decide (str "mdb" <:+: cid) then some .machine
        else none
      | none => none
    (st, queryResponse (queryFn st.store sels defaultType) returns)
  | .delete _ =>
    if !st.ctx.authenticated then
      (st, str "401:Authentication required. Challenge: " ++ st.challengeHex ++ str "\n")
    else (st, str "598:Command not yet implemented\n")
  | .change .. =>
    if !st.ctx.authenticated then
      (st, str "401:Authentication required. Challenge: " ++ st.challengeHex ++ str "\n")
    else (st, str "598:Command not yet implemented\n")
  | _ => (st, str "598:Command not yet implemented\n")

/-- One iteration of the dispatch loop of `handle_connection`: trim the
line, skip if empty, parse, run the middleware pre-chain, dispatch.  The
returned string is what the iteration writes to the socket. -/
def sessionStep (verify : Str → Str → Str → Bool) (chain : List Mw)
    (st : SessionState) (line : Str) : SessionState × Str :=
  let input := trimStr line
  if input = [] then (st, [])
  else
    match parseCommand input with
    | .err .unknownCommand => (st, str "598:Command unknown\n")
    | .err .syntaxError => (st, str "599:Syntax error\n")
    | .err .invalidArgument => (st, str "512:Illegal value\n")
    | .ok cmd =>
      match chainPre chain cmd st.ctx with
      | (ctx', .shortCircuit resp) => ({ st with ctx := ctx' }, resp)
      | (ctx', .cont) => dispatchCommand verify { st with ctx := ctx' } cmd

/-- Fold a sequence of input lines through the session loop, keeping the state. -/
def runSteps (verify : Str → Str → Str → Bool) (chain : List Mw)
    (st : SessionState) (lines : List Str) : SessionState :=
  lines.foldl (fun s l => (sessionStep verify chain s l).1) st

/-! Spec-side definitions, written from the spec's words, for the claims
that compare the code against a spec-level description. -/

/-- The spec's authentication-bypass set {`status`, `id`, `auth`, `quit`}. -/
def inBypassSet (cmd : Command) : Prop :=
  cmd = .status ∨ (∃ s, cmd = .id s) ∨ (∃ pk sg, cmd = .auth pk sg) ∨ cmd = .quit

/-- The spec's write commands: `add`, `delete`, `change`. -/
def isWriteCmd (cmd : Command) : Prop :=
  (∃ ps, cmd = .add ps) ∨ (∃ sels, cmd = .delete sels) ∨
  (∃ sels mods force, cmd = .change sels mods force)

/-- The round-trip join condition of the C3 claim: the token contains
whitespace or a double quote. -/
def needsQuoting (t : Str) : Bool := t.any fun c => isWs c || c == '"'

/-- Wrap a token in double quotes when it contains whitespace or `"`. -/
def encTok (t : Str) : Str := if needsQuoting t then '"' :: t ++ ['"'] else t

/-- Join tokens with single spaces, quoting per `encTok` (the round-trip
join of the C3 claim). -/
def quoteJoin : List Str → Str
  | [] => []
  | [t] => encTok t
  | t :: ts => encTok t ++ ' ' :: quoteJoin ts

/-- The spec's word rule for one query word against one field word: exact
equality unless the query word holds a wildcard character, in which case a
trailing `*` means prefix match and anything else falls back to equality. -/
def wordMatchSpec (qw fw : Str) : Prop :=
  if qw.contains '*' || qw.contains '?' || qw.contains '+' then
    if qw.getLast? = some '*' then qw.dropLast <+: fw else fw = qw
  else fw = qw

instance (qw fw : Str) : Decidable (wordMatchSpec qw fw) := by
  unfold wordMatchSpec
  infer_instance

/-- ASCII whitespace: the C4 claim's literal reading of the split class. -/
def isAsciiWs (c : Char) : Bool :=
  c == ' ' || c == '\t' || c == '\n' || c == '\x0b' || c == '\x0c' || c == '\r'

/-- Modelled from the spec: the C4 word rule read with ASCII-whitespace
splits, exactly as the claim words it. -/
def wordRuleAscii (fieldVal queryVal : Str) : Prop :=
  ∀ qw ∈ (splitOnPred isAsciiWs (lower queryVal)).filter (fun w => decide (w ≠ [])),
    ∃ fw ∈ splitOnPred (fun c => isAsciiWs c || c == ',' || c == ';' || c == ':')
        (lower fieldVal), wordMatchSpec qw fw

instance (fieldVal queryVal : Str) : Decidable (wordRuleAscii fieldVal queryVal) := by
  unfold wordRuleAscii
  infer_instance

/-! Sanity checks of the embedding against the protocol.rs and storage.rs
unit tests. -/

example : tokenize (str "query name=\"John \\\"Doe\\\"\" return email") =
    .ok [str "query", str "name=John \"Doe\"", str "return", str "email"] := by decide

example : tokenize (str "query name=\"unclosed") = .err .syntaxError := by decide

example : parseCommand (str "STATUS") = .ok .status := by decide

example : parseCommand (str "query name=\"John \\\"Doe\\\"\" return email") =
    .ok (.query [(some (str "name"), str "John \"Doe\"")] [str "email"]) := by decide

example : parseCommand (str "change alias=j-doe make fax=\"555-1212\"") =
    .ok (.change [(some (str "alias"), str "j-doe")] [(str "fax", str "555-1212")] false) := by
  decide

example : parseCommand (str "add name") = .err .syntaxError := by decide

example : parseCommand (str "frobnicate") = .err .unknownCommand := by decide

example : parseCommand (str "xlogin zz x") = .err .invalidArgument := by decide

example : matchesVal (str "John Doe") (str "john") = true := by decide
example : matchesVal (str "John Doe") (str "jane") = false := by decide
example : matchesVal (str "John Doe") (str "jo*") = true := by decide
example : matchesVal (str "John Doe") (str "doe JOHN") = true := by decide
example : matchesVal (str "a,b;c:d") (str "c") = true := by decide

/-! Store invariants (C7). -/

/-- Folding `add_record` over a fresh store keeps the id list equal to
`[1, …, n]` and the next-id counter one past the length. -/
theorem addRecord_fold_ids (fss : List (List (Str × Str))) (st : MemoryStorage)
    (h1 : st.records.map Record.id = List.range' 1 st.records.length)
    (h2 : st.nextId = st.records.length + 1) :
    ((fss.foldl addRecord st).records.map Record.id
        = List.range' 1 (fss.foldl addRecord st).records.length) ∧
    (fss.foldl addRecord st).nextId = (fss.foldl addRecord st).records.length + 1 ∧
    (fss.foldl addRecord st).records.length = st.records.length + fss.length := by
  induction fss generalizing st with
  | nil => exact ⟨h1, h2, by simp⟩
  | cons f fs ih =>
    have step1 : (addRecord st f).records.map Record.id
        = List.range' 1 (addRecord st f).records.length := by
      simp only [addRecord, List.map_append, h1, h2, List.length_append, List.map_cons,
        List.map_nil, List.length_cons, List.length_nil]
      rw [List.range'_concat]
      simp [Nat.add_comm]
    have step2 : (addRecord st f).nextId = (addRecord st f).records.length + 1 := by
      simp [addRecord, h2]
    have := ih (addRecord st f) step1 step2
    refine ⟨this.1, this.2.1, ?_⟩
    have hlen : (addRecord st f).records.length = st.records.length + 1 := by
      simp [addRecord]
    simp only [List.foldl_cons]
    rw [this.2.2, hlen]
    simp only [List.length_cons]
    omega

/-- C7: `add` followed by `count` increases the count by exactly one, and
the ids assigned by successive adds on a fresh in-memory store are
`1, 2, …, n` — strictly increasing, hence unique. -/
theorem add_count_and_monotone_ids :
    (∀ (st : MemoryStorage) (fields : List (Str × Str)),
       recordCount (addRecord st fields) = recordCount st + 1) ∧
    (∀ fss : List (List (Str × Str)),
       ((fss.foldl addRecord memNew).records.map Record.id = List.range' 1 fss.length) ∧
       List.Pairwise (· < ·) ((fss.foldl addRecord memNew).records.map Record.id)) := by
  constructor
  · intro st fields
    simp [recordCount, addRecord]
  · intro fss
    have h := addRecord_fold_ids fss memNew (by simp [memNew]) (by simp [memNew])
    have hlen : (fss.foldl addRecord memNew).records.length = fss.length := by
      simpa [memNew] using h.2.2
    refine ⟨by rw [h.1, hlen], ?_⟩
    rw [h.1, hlen]
    exact List.pairwise_lt_range' 1 fss.length

/-! Query type gate (C6). -/

/-- C6: with no selections and no default type, `query` returns all records
in store order; with a default type set, a typed record surviving the query
has the default type unless the selections name the field `type`, and an
untyped record never survives. -/
theorem query_type_gate :
    (∀ st : MemoryStorage, queryFn st [] none = st.records) ∧
    (∀ (st : MemoryStorage) (sels : List (Option Str × Str)) (dt : RecordType) (r : Record),
       r ∈ queryFn st sels (some dt) → r.recordType ≠ none) ∧
    (∀ (st : MemoryStorage) (sels : List (Option Str × Str)) (dt : RecordType)
       (r : Record) (t : RecordType),
       r ∈ queryFn st sels (some dt) → r.recordType = some t → t ≠ dt →
       selectionNamesType sels = true) := by
  refine ⟨?_, ?_, ?_⟩
  · intro st
    simp [queryFn, typeGate, selectionsMatch]
  · intro st sels dt r hr
    have hp := (List.mem_filter.mp hr).2
    intro hnone
    rw [Bool.and_eq_true] at hp
    have := hp.1
    rw [typeGate, hnone] at this
    simp at this
  · intro st sels dt r t hr ht hne
    have hp := (List.mem_filter.mp hr).2
    rw [Bool.and_eq_true] at hp
    have hg := hp.1
    rw [typeGate, ht] at hg
    simp only [Bool.or_eq_true, decide_eq_true_eq] at hg
    rcases hg with hg | hg
    · exact absurd hg hne
    · exact hg

/-- Witness for C6 at a concrete store: a machine-typed record survives a
person-typed default because the selection names `type`. -/
theorem query_type_gate_witness :
    selectionNamesType [(some (str "type"), str "machine")] = true := by
  have h := query_type_gate.2.2
    ⟨[⟨1, some .machine, [(str "type", str "machine")]⟩], 2⟩
    [(some (str "type"), str "machine")] .person
    ⟨1, some .machine, [(str "type", str "machine")]⟩ .machine
    (by decide) (by decide) (by decide)
  exact h

/-! Security-tier middleware (C2). -/

/-- The Boolean bypass test of middleware.rs agrees with the spec's set
{`status`, `id`, `auth`, `quit`}. -/
theorem isAuthBypassed_iff (cmd : Command) : isAuthBypassed cmd = true ↔ inBypassSet cmd := by
  cases cmd <;> simp [isAuthBypassed, inBypassSet]

/-- The Boolean write test of middleware.rs agrees with the spec's
write-command set. -/
theorem isWriteCommand_iff (cmd : Command) : isWriteCommand cmd = true ↔ isWriteCmd cmd := by
  cases cmd <;> simp [isWriteCommand, isWriteCmd]

/-- C2 counterexample: under the Scoped tier the unauthenticated
short-circuit message names the Scoped tier, not the Protected tier as the
claim asserts. -/
theorem securityTier_scoped_message_counterexample :
    (mwPre (.securityTier .scopedT) (.query [] [])
        ⟨none, false, [], [], .openT⟩).2
      = .shortCircuit (str "401:Authentication required for Scoped tier\n") ∧
    str "401:Authentication required for Scoped tier\n"
      ≠ str "401:Authentication required for Protected tier\n" := by
  constructor
  · rfl
  · decide

/-- C2 (amended): Open never short-circuits; Protected short-circuits a
non-bypassed command from an unauthenticated context with the Protected-tier
401 message and continues otherwise; Scoped applies the same rule but with a
message naming the Scoped tier, and additionally short-circuits writes
without the admin role with the 403 message. -/
theorem securityTier_rules :
    (∀ (cmd : Command) (ctx : ClientContext),
       (mwPre (.securityTier .openT) cmd ctx).2 = .cont) ∧
    (∀ (cmd : Command) (ctx : ClientContext),
       ¬ inBypassSet cmd → ctx.authenticated = false →
       (mwPre (.securityTier .protectedT) cmd ctx).2
         = .shortCircuit (str "401:Authentication required for Protected tier\n")) ∧
    (∀ (cmd : Command) (ctx : ClientContext),
       inBypassSet cmd ∨ ctx.authenticated = true →
       (mwPre (.securityTier .protectedT) cmd ctx).2 = .cont) ∧
    (∀ (cmd : Command) (ctx : ClientContext),
       ¬ inBypassSet cmd → ctx.authenticated = false →
       (mwPre (.securityTier .scopedT) cmd ctx).2
         = .shortCircuit (str "401:Authentication required for Scoped tier\n")) ∧
    (∀ (cmd : Command) (ctx : ClientContext),
       isWriteCmd cmd → ctx.authenticated = true → str "admin" ∉ ctx.roles →
       (mwPre (.securityTier .scopedT) cmd ctx).2
         = .shortCircuit (str "403:Forbidden: Admin role required for write operations\n")) ∧
    (∀ (cmd : Command) (ctx : ClientContext),
       ctx.authenticated = true → (¬ isWriteCmd cmd ∨ str "admin" ∈ ctx.roles) →
       (mwPre (.securityTier .scopedT) cmd ctx).2 = .cont) := by
  refine ⟨?_, ?_, ?_, ?_, ?_, ?_⟩
  · intro cmd ctx
    rfl
  · intro cmd ctx hnb hauth
    have hb : isAuthBypassed cmd = false := by
      rw [← Bool.not_eq_true, isAuthBypassed_iff]
      exact hnb
    simp [mwPre, hb, hauth]
  · intro cmd ctx h
    rcases h with h | h
    · have hb : isAuthBypassed cmd = true := (isAuthBypassed_iff cmd).mpr h
      simp [mwPre, hb]
    · simp [mwPre, h]
  · intro cmd ctx hnb hauth
    have hb : isAuthBypassed cmd = false := by
      rw [← Bool.not_eq_true, isAuthBypassed_iff]
      exact hnb
    simp [mwPre, hb, hauth]
  · intro cmd ctx hw hauth hrole
    have hwb : isWriteCommand cmd = true := (isWriteCommand_iff cmd).mpr hw
    simp [mwPre, hwb, hauth, hrole]
  · intro cmd ctx hauth h
    rcases h with h | h
    · have hwb : isWriteCommand cmd = false := by
        rw [← Bool.not_eq_true, isWriteCommand_iff]
        exact h
      simp [mwPre, hauth, hwb]
    · simp [mwPre, hauth, h]

/-- Witness for the amended C2 rules at concrete inputs. -/
theorem securityTier_rules_witness :
    (mwPre (.securityTier .protectedT) (.query [] [])
        ⟨none, false, [], [], .openT⟩).2
      = .shortCircuit (str "401:Authentication required for Protected tier\n") := by
  exact securityTier_rules.2.1 (.query [] []) ⟨none, false, [], [], .openT⟩
    (by simp [inBypassSet]) rfl

/-! Authentication dispatch (C1). -/

/-- C1 evidence: the `auth` arm of `handle_connection`.  On successful
verification it sets the authenticated flag and answers `200:Ok`, on failure
it answers `403:Forbidden` and leaves the session open — but in both cases
the context's role list is left exactly as it was: `AuthManager::get_roles`
is never called, so roles are never assigned, contradicting the claim. -/
theorem auth_dispatch_roles_never_assigned :
    ∀ (verify : Str → Str → Str → Bool) (st : SessionState) (pk sg : Str),
      (verify pk sg st.challengeHex = true →
        (dispatchCommand verify st (.auth pk sg)).1.ctx.authenticated = true ∧
        (dispatchCommand verify st (.auth pk sg)).2 = str "200:Ok\n" ∧
        (dispatchCommand verify st (.auth pk sg)).1.ctx.roles = st.ctx.roles ∧
        (dispatchCommand verify st (.auth pk sg)).1.store = st.store ∧
        (dispatchCommand verify st (.auth pk sg)).1.closed = st.closed) ∧
      (verify pk sg st.challengeHex = false →
        dispatchCommand verify st (.auth pk sg) = (st, str "403:Forbidden\n")) := by
  intro verify st pk sg
  constructor
  · intro hv
    simp [dispatchCommand, hv]
  · intro hv
    simp [dispatchCommand, hv]

/-- Witness for C1: a session whose verification succeeds still has an
empty role list afterwards. -/
theorem auth_dispatch_roles_never_assigned_witness :
    (dispatchCommand (fun _ _ _ => true) (initSession [] memNew (str "00"))
        (.auth (str "pk") (str "sg"))).1.ctx.roles = [] := by
  have h := (auth_dispatch_roles_never_assigned (fun _ _ _ => true)
    (initSession [] memNew (str "00")) (str "pk") (str "sg")).1 rfl
  exact h.2.2.1

/-! Challenge stability (C9). -/

/-- `hexEncode` emits two characters per byte. -/
theorem hexEncode_length (bytes : List Nat) : (hexEncode bytes).length = 2 * bytes.length := by
  induction bytes with
  | nil => rfl
  | cons b bs ih =>
    simp only [hexEncode, List.map_cons, List.flatten_cons, List.length_append,
      List.length_cons, List.length_nil] at ih ⊢
    omega

/-- Dispatch never touches the challenge. -/
theorem dispatch_challenge (verify : Str → Str → Str → Bool) (st : SessionState)
    (cmd : Command) : (dispatchCommand verify st cmd).1.challengeHex = st.challengeHex := by
  cases cmd <;> simp only [dispatchCommand] <;> first
    | rfl
    | (split <;> rfl)

/-- One loop iteration never touches the challenge. -/
theorem sessionStep_challenge (verify : Str → Str → Str → Bool) (chain : List Mw)
    (st : SessionState) (line : Str) :
    (sessionStep verify chain st line).1.challengeHex = st.challengeHex := by
  unfold sessionStep
  by_cases h : trimStr line = []
  · simp [h]
  · simp only [h, if_neg]
    cases hp : parseCommand (trimStr line) with
    | err e =>
      cases e <;> simp [hp]
    | ok cmd =>
      cases hc : chainPre chain cmd st.ctx with
      | mk ctx' act =>
        cases act with
        | cont => simp [hp, hc, dispatch_challenge]
        | shortCircuit r => simp [hp, hc]

/-- C9: the challenge is 32 hex characters for the 16 random bytes drawn at
accept, no step of the session ever changes it, every `auth` verification is
evaluated against it, and every authentication-required `401` response for a
write embeds exactly it — in particular after any number of prior steps. -/
theorem challenge_per_session_stable :
    (∀ bytes : List Nat, bytes.length = 16 → (hexEncode bytes).length = 32) ∧
    (∀ (verify : Str → Str → Str → Bool) (chain : List Mw) (st : SessionState) (line : Str),
       (sessionStep verify chain st line).1.challengeHex = st.challengeHex) ∧
    (∀ (verify : Str → Str → Str → Bool) (chain : List Mw) (st : SessionState)
       (lines : List Str),
       (runSteps verify chain st lines).challengeHex = st.challengeHex) ∧
    (∀ (verify : Str → Str → Str → Bool) (st : SessionState) (pk sg : Str),
       (dispatchCommand verify st (.auth pk sg)).2 =
         if verify pk sg st.challengeHex then str "200:Ok\n" else str "403:Forbidden\n") ∧
    (∀ (verify : Str → Str → Str → Bool) (st : SessionState) (pairs : List (Str × Str))
       (sels : List (Option Str × Str)) (mods : List (Str × Str)) (force : Bool),
       st.ctx.authenticated = false →
       (dispatchCommand verify st (.add pairs)).2 =
         str "401:Authentication required. Challenge: " ++ st.challengeHex ++ str "\n" ∧
       (dispatchCommand verify st (.delete sels)).2 =
         str "401:Authentication required. Challenge: " ++ st.challengeHex ++ str "\n" ∧
       (dispatchCommand verify st (.change sels mods force)).2 =
         str "401:Authentication required. Challenge: " ++ st.challengeHex ++ str "\n") := by
  refine ⟨?_, sessionStep_challenge, ?_, ?_, ?_⟩
  · intro bytes h
    rw [hexEncode_length, h]
  · intro verify chain st lines
    induction lines generalizing st with
    | nil => rfl
    | cons l ls ih =>
      show (runSteps verify chain (sessionStep verify chain st l).1 ls).challengeHex = _
      rw [ih, sessionStep_challenge]
  · intro verify st pk sg
    by_cases hv : verify pk sg st.challengeHex <;> simp [dispatchCommand, hv]
  · intro verify st pairs sels mods force h
    refine ⟨?_, ?_, ?_⟩ <;> simp [dispatchCommand, h]

/-- Witness for C9 at concrete inputs: 16 zero bytes hex-encode to 32
characters, and a failed `auth` after an earlier failed `auth` still reports
against the same challenge. -/
theorem challenge_per_session_stable_witness :
    (hexEncode (List.replicate 16 0)).length = 32 ∧
    (runSteps (fun _ _ _ => false) [] (initSession [] memNew (str "abcd"))
        [str "auth k s", str "auth k s"]).challengeHex = str "abcd" := by
  constructor
  · exact challenge_per_session_stable.1 (List.replicate 16 0) (by decide)
  · exact challenge_per_session_stable.2.2.1 (fun _ _ _ => false) []
      (initSession [] memNew (str "abcd")) [str "auth k s", str "auth k s"]

/-! Frame condition of parse errors and middleware short-circuits (C8). -/

/-- Each concrete middleware's `pre_process` only ever writes the tier
field of the context: client id, authenticated flag, roles and peer address
pass through untouched. -/
theorem mwPre_preserves (m : Mw) (cmd : Command) (ctx : ClientContext) :
    (mwPre m cmd ctx).1.id = ctx.id ∧
    (mwPre m cmd ctx).1.authenticated = ctx.authenticated ∧
    (mwPre m cmd ctx).1.roles = ctx.roles := by
  cases m with
  | logging => exact ⟨rfl, rfl, rfl⟩
  | readOnly ids =>
    have h : (mwPre (.readOnly ids) cmd ctx).1 = ctx := by
      simp only [mwPre]
      split
      · split <;> (try split) <;> rfl
      · rfl
    rw [h]
    exact ⟨rfl, rfl, rfl⟩
  | securityTier dt =>
    have h : (mwPre (.securityTier dt) cmd ctx).1 = { ctx with tier := dt } := by
      cases dt <;> simp only [mwPre] <;> (try split) <;> (try split) <;> rfl
    rw [h]
    exact ⟨rfl, rfl, rfl⟩

/-- The middleware chain preserves client id, authenticated flag and roles. -/
theorem chainPre_preserves (chain : List Mw) (cmd : Command) (ctx : ClientContext) :
    (chainPre chain cmd ctx).1.id = ctx.id ∧
    (chainPre chain cmd ctx).1.authenticated = ctx.authenticated ∧
    (chainPre chain cmd ctx).1.roles = ctx.roles := by
  induction chain generalizing ctx with
  | nil => exact ⟨rfl, rfl, rfl⟩
  | cons m ms ih =>
    have hm := mwPre_preserves m cmd ctx
    simp only [chainPre]
    cases hmw : mwPre m cmd ctx with
    | mk ctx' act =>
      rw [hmw] at hm
      cases act with
      | cont =>
        have := ih ctx'
        simp only []
        exact ⟨this.1.trans hm.1, this.2.1.trans hm.2.1, this.2.2.trans hm.2.2⟩
      | shortCircuit r => exact hm

/-- C8: a step whose line fails to parse, or whose command is
short-circuited by the middleware pre-chain, leaves the store and the
context's id/authenticated/roles untouched and writes only the error or
short-circuit response — no dispatch happens. -/
theorem error_shortcircuit_frame :
    ∀ (verify : Str → Str → Str → Bool) (chain : List Mw) (st : SessionState) (line : Str),
      trimStr line ≠ [] →
      ((parseCommand (trimStr line) = .err .unknownCommand →
          sessionStep verify chain st line = (st, str "598:Command unknown\n")) ∧
       (parseCommand (trimStr line) = .err .syntaxError →
          sessionStep verify chain st line = (st, str "599:Syntax error\n")) ∧
       (parseCommand (trimStr line) = .err .invalidArgument →
          sessionStep verify chain st line = (st, str "512:Illegal value\n")) ∧
       (∀ (cmd : Command) (ctx' : ClientContext) (resp : Str),
          parseCommand (trimStr line) = .ok cmd →
          chainPre chain cmd st.ctx = (ctx', .shortCircuit resp) →
          sessionStep verify chain st line = ({ st with ctx := ctx' }, resp) ∧
          ({ st with ctx := ctx' } : SessionState).store = st.store ∧
          ctx'.id = st.ctx.id ∧ ctx'.authenticated = st.ctx.authenticated ∧
          ctx'.roles = st.ctx.roles)) := by
  intro verify chain st line hne
  refine ⟨?_, ?_, ?_, ?_⟩
  · intro hp
    simp [sessionStep, hne, hp]
  · intro hp
    simp [sessionStep, hne, hp]
  · intro hp
    simp [sessionStep, hne, hp]
  · intro cmd ctx' resp hp hc
    have hpre := chainPre_preserves chain cmd st.ctx
    rw [hc] at hpre
    exact ⟨by simp [sessionStep, hne, hp, hc], rfl, hpre.1, hpre.2.1, hpre.2.2⟩

/-- Witness for C8: an unknown command and a Protected-tier short-circuit,
each at concrete inputs, leave the concrete session state unchanged. -/
theorem error_shortcircuit_frame_witness :
    sessionStep (fun _ _ _ => false) [] (initSession [] memNew (str "00"))
        (str "frobnicate") = (initSession [] memNew (str "00"), str "598:Command unknown\n") ∧
    (sessionStep (fun _ _ _ => false) [.securityTier .protectedT]
        (initSession [] memNew (str "00")) (str "query a")).2
      = str "401:Authentication required for Protected tier\n" := by
  constructor
  · exact (error_shortcircuit_frame (fun _ _ _ => false) [] (initSession [] memNew (str "00"))
      (str "frobnicate") (by decide)).1 (by decide)
  · have h := (error_shortcircuit_frame (fun _ _ _ => false) [.securityTier .protectedT]
      (initSession [] memNew (str "00")) (str "query a") (by decide)).2.2.2
      (.query [(none, str "a")] [])
      ⟨none, false, [], [], .protectedT⟩
      (str "401:Authentication required for Protected tier\n")
      (by decide) (by decide)
    rw [h.1]

/-! Query response framing (C5). -/

/-- The sequential record loop of the query arm equals an indexed map:
record number `i` (0-based position) contributes its lines under index
`i + 1`. -/
theorem queryBody_mapIdx (records : List Record) (returns : List Str) (i : Nat) :
    queryBody i records returns
      = (records.mapIdx fun j r => recordLines (i + j + 1) r returns).flatten := by
  induction records generalizing i with
  | nil => rfl
  | cons r rs ih =>
    rw [queryBody, List.mapIdx_cons, List.flatten_cons, ih (i + 1)]
    have : (fun j a => recordLines (i + 1 + j + 1) a returns)
        = fun j a => recordLines (i + (j + 1) + 1) a returns := by
      funext j a
      have : i + 1 + j + 1 = i + (j + 1) + 1 := by omega
      rw [this]
    rw [this]

/-- C5: the query arm writes exactly `501:No matches to query` on an empty
match set; otherwise the `102:` count line with N the match count, then for
each matching record — taken in store order — its data rows indexed from 1,
then `200:Ok`. -/
theorem query_response_shape :
    ∀ (store : MemoryStorage) (sels : List (Option Str × Str)) (dt : Option RecordType)
      (returns : List Str),
      (queryFn store sels dt).Sublist store.records ∧
      (queryFn store sels dt = [] →
        queryResponse (queryFn store sels dt) returns = str "501:No matches to query\n") ∧
      (queryFn store sels dt ≠ [] →
        queryResponse (queryFn store sels dt) returns =
          str "102:There were " ++ natToStr (queryFn store sels dt).length ++
          str " matches to your request.\n" ++
          ((queryFn store sels dt).mapIdx fun i r => recordLines (i + 1) r returns).flatten ++
          str "200:Ok\n") := by
  intro store sels dt returns
  refine ⟨List.filter_sublist store.records, ?_, ?_⟩
  · intro h
    rw [queryResponse, if_pos h]
  · intro h
    rw [queryResponse, if_neg h, queryBody_mapIdx]
    simp

/-- Witness for C5 at a concrete one-record store. -/
theorem query_response_shape_witness :
    queryResponse (queryFn ⟨[⟨1, none, [(str "name", str "x")]⟩], 2⟩ [] none) [] =
      str "102:There were " ++
      natToStr (queryFn ⟨[⟨1, none, [(str "name", str "x")]⟩], 2⟩ [] none).length ++
      str " matches to your request.\n" ++
      ((queryFn ⟨[⟨1, none, [(str "name", str "x")]⟩], 2⟩ [] none).mapIdx
        fun i r => recordLines (i + 1) r []).flatten ++
      str "200:Ok\n" := by
  exact (query_response_shape ⟨[⟨1, none, [(str "name", str "x")]⟩], 2⟩ [] none []).2.2
    (by decide)

/-! Trailing bare backslash (C10). -/

/-- C10: a line ending in a bare backslash (the scanner reaches it outside
escape state) tokenizes successfully to the same token list as the line
without it: the dangling escape state is silently discarded at end of line. -/
theorem trailing_backslash_dropped :
    ∀ (l : Str) (ts : List Str), (scanTok l).escaped = false →
      tokenize l = .ok ts → tokenize (l ++ ['\\']) = .ok ts := by
  intro l ts hesc hok
  have hstep : scanTok (l ++ ['\\']) = { scanTok l with escaped := true } := by
    show scanFrom initTok (l ++ ['\\']) = _
    rw [scanFrom, List.foldl_append]
    show tokStep (scanTok l) '\\' = _
    rw [tokStep, if_neg (by simp [hesc]), if_pos rfl]
  rw [tokenize, hstep, finishTok]
  rw [tokenize, finishTok] at hok
  exact hok

/-- Witness for C10: `ab\` tokenizes like `ab`. -/
theorem trailing_backslash_dropped_witness :
    tokenize (str "ab" ++ ['\\']) = .ok [str "ab"] := by
  exact trailing_backslash_dropped (str "ab") [str "ab"] (by decide) (by decide)

/-! Tokenizer round-trip (C3). -/

/-- One scan step never adds an empty token. -/
theorem tokStep_toks_nonempty (s : TokState) (c : Char)
    (h : ∀ t ∈ s.toks, t ≠ []) : ∀ t ∈ (tokStep s c).toks, t ≠ [] := by
  rw [tokStep]
  split
  · exact h
  · split
    · exact h
    · split
      · exact h
      · split
        · rw [flushCur]
          split
          · exact h
          · intro t ht
            rcases List.mem_append.mp ht with ht | ht
            · exact h t ht
            · rw [List.mem_singleton.mp ht]
              assumption
        · exact h

/-- The scan never accumulates an empty token. -/
theorem scanFrom_toks_nonempty (l : Str) (s : TokState)
    (h : ∀ t ∈ s.toks, t ≠ []) : ∀ t ∈ (scanFrom s l).toks, t ≠ [] := by
  induction l generalizing s with
  | nil => exact h
  | cons c cs ih => exact ih (tokStep s c) (tokStep_toks_nonempty s c h)

/-- Every token produced by `tokenize` is nonempty. -/
theorem tokenize_tokens_nonempty (l : Str) (ts : List Str)
    (h : tokenize l = .ok ts) : ∀ t ∈ ts, t ≠ [] := by
  have hscan := scanFrom_toks_nonempty l initTok (by intro t ht; cases ht)
  rw [tokenize, finishTok] at h
  split at h
  · cases h
  · have hts : (scanTok l).toks ++ (if (scanTok l).cur = [] then [] else [(scanTok l).cur])
        = ts := by
      cases h
      rfl
    rw [← hts]
    intro t ht
    rcases List.mem_append.mp ht with ht | ht
    · exact hscan t ht
    · split at ht
      · cases ht
      · rw [List.mem_singleton.mp ht]
        assumption

/-- Scanning a run of plain characters (no quote, no backslash, no
whitespace) outside quotes just appends them to the current token. -/
theorem scanFrom_plain (t cur : Str) (toks : List Str)
    (h : ∀ c ∈ t, c ≠ '"' ∧ c ≠ '\\' ∧ isWs c = false) :
    scanFrom ⟨false, false, cur, toks⟩ t = ⟨false, false, cur ++ t, toks⟩ := by
  induction t generalizing cur with
  | nil => simp [scanFrom]
  | cons c cs ih =>
    obtain ⟨h1, h2, h3⟩ := h c (List.mem_cons_self c cs)
    have hstep : tokStep ⟨false, false, cur, toks⟩ c = ⟨false, false, cur ++ [c], toks⟩ := by
      rw [tokStep]
      simp [h1, h2, h3]
    show scanFrom (tokStep ⟨false, false, cur, toks⟩ c) cs = _
    rw [hstep, ih (cur ++ [c]) (fun d hd => h d (List.mem_cons_of_mem c hd))]
    simp

/-- Scanning a run of quote-free, backslash-free characters inside quotes
appends them all, whitespace included. -/
theorem scanFrom_inQuotes (t cur : Str) (toks : List Str)
    (h : ∀ c ∈ t, c ≠ '"' ∧ c ≠ '\\') :
    scanFrom ⟨true, false, cur, toks⟩ t = ⟨true, false, cur ++ t, toks⟩ := by
  induction t generalizing cur with
  | nil => simp [scanFrom]
  | cons c cs ih =>
    obtain ⟨h1, h2⟩ := h c (List.mem_cons_self c cs)
    have hstep : tokStep ⟨true, false, cur, toks⟩ c = ⟨true, false, cur ++ [c], toks⟩ := by
      rw [tokStep]
      simp [h1, h2]
    show scanFrom (tokStep ⟨true, false, cur, toks⟩ c) cs = _
    rw [hstep, ih (cur ++ [c]) (fun d hd => h d (List.mem_cons_of_mem c hd))]
    simp

/-- Scanning a quoted token from a neutral state: the quotes are stripped
and the body becomes the current token. -/
theorem scanFrom_quoted (t : Str) (toks : List Str)
    (h : ∀ c ∈ t, c ≠ '"' ∧ c ≠ '\\') :
    scanFrom ⟨false, false, [], toks⟩ ('"' :: (t ++ ['"'])) = ⟨false, false, t, toks⟩ := by
  have hopen : tokStep ⟨false, false, [], toks⟩ '"' = ⟨true, false, [], toks⟩ := by
    rw [tokStep]
    simp
  show scanFrom (tokStep ⟨false, false, [], toks⟩ '"') (t ++ ['"']) = _
  rw [hopen, scanFrom, List.foldl_append]
  have hbody := scanFrom_inQuotes t [] toks h
  rw [scanFrom] at hbody
  rw [hbody]
  show tokStep ⟨true, false, t, toks⟩ '"' = _
  rw [tokStep]
  simp

/-- Scanning the encoding of a good token from a neutral state leaves it as
the current token. -/
theorem scanFrom_encTok (t : Str) (toks : List Str)
    (_hne : t ≠ []) (h : ∀ c ∈ t, c ≠ '"' ∧ c ≠ '\\') :
    scanFrom ⟨false, false, [], toks⟩ (encTok t) = ⟨false, false, t, toks⟩ := by
  rw [encTok]
  split
  · exact scanFrom_quoted t toks h
  · rename_i hq
    have hq' : ∀ c ∈ t, isWs c = false ∧ ¬ c = '"' := by
      simpa [needsQuoting] using hq
    have hplain : ∀ c ∈ t, c ≠ '"' ∧ c ≠ '\\' ∧ isWs c = false := fun c hc =>
      ⟨(h c hc).1, (h c hc).2, (hq' c hc).1⟩
    have := scanFrom_plain t [] toks hplain
    simpa using this

/-- A space flushes a nonempty current token. -/
theorem tokStep_space (cur : Str) (toks : List Str) (h : cur ≠ []) :
    tokStep ⟨false, false, cur, toks⟩ ' ' = ⟨false, false, [], toks ++ [cur]⟩ := by
  rw [tokStep]
  simp [flushCur, h, show isWs ' ' = true from by decide]

/-- Scanning the space-joined, quoted encoding of a list of good tokens
appends exactly those tokens. -/
theorem scan_quoteJoin (ts : List Str) (toks : List Str)
    (h : ∀ t ∈ ts, t ≠ [] ∧ ∀ c ∈ t, c ≠ '"' ∧ c ≠ '\\') :
    finishTok (scanFrom ⟨false, false, [], toks⟩ (quoteJoin ts)) = .ok (toks ++ ts) := by
  induction ts generalizing toks with
  | nil => simp [quoteJoin, scanFrom, finishTok]
  | cons t ts ih =>
    obtain ⟨hne, hgood⟩ := h t (List.mem_cons_self t ts)
    cases ts with
    | nil =>
      show finishTok (scanFrom ⟨false, false, [], toks⟩ (encTok t)) = _
      rw [scanFrom_encTok t toks hne hgood, finishTok]
      simp [hne]
    | cons t2 ts2 =>
      show finishTok (scanFrom ⟨false, false, [], toks⟩
        (encTok t ++ ' ' :: quoteJoin (t2 :: ts2))) = _
      rw [scanFrom, List.foldl_append]
      have henc := scanFrom_encTok t toks hne hgood
      rw [scanFrom] at henc
      rw [henc]
      show finishTok (scanFrom (tokStep ⟨false, false, t, toks⟩ ' ')
        (quoteJoin (t2 :: ts2))) = _
      rw [tokStep_space t toks hne,
        ih (toks ++ [t]) (fun u hu => h u (List.mem_cons_of_mem t hu))]
      simp

/-- C3 counterexample: the token `a\b` (from input `a\\b`) contains a
backslash; the quoting join leaves it bare, and retokenizing collapses the
escape, so the round trip loses the backslash. -/
theorem tokenize_roundtrip_counterexample :
    tokenize (str "a\\\\b") = .ok [str "a\\b"] ∧
    quoteJoin [str "a\\b"] = str "a\\b" ∧
    tokenize (quoteJoin [str "a\\b"]) = .ok [str "ab"] ∧
    (PResult.ok [str "ab"] : PResult (List Str)) ≠ .ok [str "a\\b"] := by
  refine ⟨by decide, by decide, by decide, by decide⟩

/-- C3 (amended): the tokenize → quote-join → tokenize round trip restores
the token list whenever no produced token contains a double quote or a
backslash (tokens with either break it, as the counterexample shows). -/
theorem tokenize_roundtrip :
    ∀ (l : Str) (ts : List Str), tokenize l = .ok ts →
      (∀ t ∈ ts, ∀ c ∈ t, c ≠ '"' ∧ c ≠ '\\') →
      tokenize (quoteJoin ts) = .ok ts := by
  intro l ts hok hgood
  have hne := tokenize_tokens_nonempty l ts hok
  have h := scan_quoteJoin ts [] (fun t ht => ⟨hne t ht, hgood t ht⟩)
  rw [tokenize]
  show finishTok (scanFrom initTok (quoteJoin ts)) = _
  rw [show initTok = ⟨false, false, [], []⟩ from rfl, h]
  rfl

/-- Witness for C3 at a concrete quoted input. -/
theorem tokenize_roundtrip_witness :
    tokenize (quoteJoin [str "a", str "b c"]) = .ok [str "a", str "b c"] := by
  exact tokenize_roundtrip (str "a \"b c\"") [str "a", str "b c"] (by decide) (by decide)

/-! Word-rule matching (C4). -/

/-- The per-word Boolean test of `MemoryStorage::matches` agrees with the
spec's word rule. -/
theorem word_test_iff (qw fw : Str) :
    (if qw.contains '*' || qw.contains '?' || qw.contains '+' then wildcardMatch fw qw
     else decide (fw = qw)) = true ↔ wordMatchSpec qw fw := by
  rw [wordMatchSpec, wildcardMatch]
  split
  · split <;> simp
  · simp

/-- C4 counterexample: with a no-break space (U+00A0, whitespace for Rust's
`char::is_whitespace` but not ASCII whitespace) separating the field words,
the code matches while the claim's ASCII-whitespace word rule does not. -/
theorem matches_word_rule_counterexample :
    matchesVal ['a', Char.ofNat 0xA0, 'b'] ['b'] = true ∧
    ¬ wordRuleAscii ['a', Char.ofNat 0xA0, 'b'] ['b'] := by
  refine ⟨by decide, by decide⟩

/-- C4 (amended): the selection-entry match predicate holds iff, after
case-folding both sides, every whitespace-separated query word (whitespace
in the Unicode `char::is_whitespace` sense, not merely ASCII) matches some
field word split on whitespace and `,` `;` `:`, per the spec's
equality/trailing-`*` word rule; matching is case-insensitive and invariant
under permutation of the query words. -/
theorem matches_word_rule :
    (∀ fieldVal queryVal : Str,
       matchesVal fieldVal queryVal = true ↔
         ∀ qw ∈ splitWs (lower queryVal),
           ∃ fw ∈ splitOnPred isSep (lower fieldVal), wordMatchSpec qw fw) ∧
    (∀ f f' q q' : Str, lower f = lower f' → lower q = lower q' →
       matchesVal f q = matchesVal f' q') ∧
    (∀ f q q' : Str, (splitWs (lower q)).Perm (splitWs (lower q')) →
       matchesVal f q = matchesVal f q') := by
  refine ⟨?_, ?_, ?_⟩
  · intro fieldVal queryVal
    simp only [matchesVal, List.all_eq_true, List.any_eq_true]
    constructor
    · intro h qw hqw
      obtain ⟨fw, hfw, hm⟩ := h qw hqw
      exact ⟨fw, hfw, (word_test_iff qw fw).mp hm⟩
    · intro h qw hqw
      obtain ⟨fw, hfw, hm⟩ := h qw hqw
      exact ⟨fw, hfw, (word_test_iff qw fw).mpr hm⟩
  · intro f f' q q' hf hq
    simp only [matchesVal]
    rw [hf, hq]
  · intro f q q' hperm
    simp only [matchesVal]
    rw [Bool.eq_iff_iff]
    simp only [List.all_eq_true]
    exact ⟨fun h x hx => h x (hperm.mem_iff.mpr hx), fun h x hx => h x (hperm.mem_iff.mp hx)⟩

/-- Witness for C4: query-word order does not matter on a concrete pair. -/
theorem matches_word_rule_witness :
    matchesVal (str "John Doe") (str "john doe") = matchesVal (str "John Doe") (str "doe john") := by
  exact matches_word_rule.2.2 (str "John Doe") (str "john doe") (str "doe john") (by decide)

end Pharos
